import Mathlib

/-!
Shallow embedding of `flibusta_client.py` (the dual-source retrieval engine of
the LibraryBot repository) together with proofs about its claimed properties.

Conventions of the embedding:
* Python strings are Lean `String`ated; `None`-able strings are `Option String`.
* External library primitives (the `re` regex searches with their fixed
  patterns, `xml.etree.ElementTree.fromstring`, `urllib.parse.quote`, and the
  HTTP transport `httpx.Client.get`) are supplied by an `Env` record: the repo
  code is translated literally around these primitives.
* Python exceptions are modelled with `Except PyErr`; a `try/except` block is a
  `match` on the `Except` value.
* `list.sort(key=...)` (CPython's stable sort, which computes the key of every
  element up front and therefore raises `AttributeError` as soon as a key is
  `None.lower()`) is modelled by `pySortByKey` below: an insertion sort, which
  computes the same output as any stable sort under the same total preorder.
* `str.lower` is modelled on its ASCII fragment (`Char.toLower`), which covers
  every concrete string appearing in the claims.
-/

/-- Python `needle in haystack` prefix test on character lists. -/
def charsPrefix : List Char → List Char → Bool
  | [], _ => true
  | _ :: _, [] => false
  | a :: as, b :: bs => a == b && charsPrefix as bs

/-- Helper for `pyIn`: substring occurrence test on character lists. -/
def charsInfix (pat : List Char) : List Char → Bool
  | [] => pat.isEmpty
  | c :: rest => charsPrefix pat (c :: rest) || charsInfix pat rest

/-- Python `needle in haystack` on strings (substring containment). -/
def pyIn (needle hay : String) : Bool :=
  charsInfix needle.toList hay.toList

/-- Python `s.split(sep)` for a single-character separator (keeps empty parts). -/
def splitOnChar (sep : Char) : List Char → List (List Char)
  | [] => [[]]
  | c :: rest =>
    let r := splitOnChar sep rest
    if c = sep then [] :: r
    else
      match r with
      | h :: t => (c :: h) :: t
      | [] => [[c]]

/-- Python `s.split(sep)` (single-character separator) on strings. -/
def pySplit (s : String) (sep : Char) : List String :=
  (splitOnChar sep s.toList).map List.asString

/-- Python `str.lower()`, ASCII fragment. -/
def pyLower (s : String) : String :=
  (s.toList.map Char.toLower).asString

/-- Python whitespace characters stripped by `str.strip()`. -/
def isPySpace (c : Char) : Bool :=
  c == ' ' || c == '\t' || c == '\n' || c == '\r' || c == Char.ofNat 11 || c == Char.ofNat 12

/-- Python `str.strip()`. -/
def pyStrip (s : String) : String :=
  (((s.toList.dropWhile isPySpace).reverse.dropWhile isPySpace).reverse).asString

/-- Lexicographic comparison of character lists by code point, the order used by
Python string comparison during `list.sort`. -/
def charsLe : List Char → List Char → Bool
  | [], _ => true
  | _ :: _, [] => false
  | a :: as, b :: bs =>
    if a.toNat < b.toNat then true
    else if b.toNat < a.toNat then false
    else charsLe as bs

/-- Python `a <= b` on strings (code-point lexicographic). -/
def pyStrLe (a b : String) : Bool :=
  charsLe a.toList b.toList

/-- Python `str.replace(pat, sub)` (all non-overlapping occurrences, left to
right), fuelled so that the recursion is structural; the fuel is always the
input length, which suffices because `pat` is nonempty at every call site. -/
def replaceAux (pat sub : List Char) : Nat → List Char → List Char
  | _, [] => []
  | 0, cs => cs
  | fuel + 1, c :: rest =>
    if charsPrefix pat (c :: rest) then
      sub ++ replaceAux pat sub fuel ((c :: rest).drop pat.length)
    else
      c :: replaceAux pat sub fuel rest

/-- Python `s.replace(pat, sub)` on strings. -/
def pyReplace (s pat sub : String) : String :=
  (replaceAux pat.toList sub.toList s.toList.length s.toList).asString

/-- The regex `re.sub(r'<[^>]+>', '', text)` of `_clean_html`: each leftmost
non-overlapping match runs from a `<` over one or more non-`>` characters to
the next `>`; unmatched text is kept. Fuelled structural recursion. -/
def stripTagsAux : Nat → List Char → List Char
  | _, [] => []
  | 0, cs => cs
  | fuel + 1, c :: rest =>
    if c = '<' then
      let inner := rest.takeWhile (fun d => d ≠ '>')
      match rest.drop inner.length with
      | '>' :: rest2 =>
        if inner.isEmpty then c :: stripTagsAux fuel rest
        else stripTagsAux fuel rest2
      | _ => c :: stripTagsAux fuel rest
    else c :: stripTagsAux fuel rest

/-- String version of `stripTagsAux` with the standard fuel. -/
def stripTags (s : String) : String :=
  (stripTagsAux s.toList.length s.toList).asString

/-- Hexadecimal digit value, as used by `urllib.parse.unquote`. -/
def hexVal (c : Char) : Option Nat :=
  if '0' ≤ c ∧ c ≤ '9' then some (c.toNat - '0'.toNat)
  else if 'a' ≤ c ∧ c ≤ 'f' then some (c.toNat - 'a'.toNat + 10)
  else if 'A' ≤ c ∧ c ≤ 'F' then some (c.toNat - 'A'.toNat + 10)
  else none

/-- Python `urllib.parse.unquote` on its single-byte fragment: every `%XX`
with two hex digits becomes the character with that code; a `%` not followed
by two hex digits is kept literally. -/
def unquoteAux : List Char → List Char
  | [] => []
  | '%' :: h1 :: h2 :: rest =>
    match hexVal h1, hexVal h2 with
    | some a, some b => Char.ofNat (16 * a + b) :: unquoteAux rest
    | _, _ => '%' :: unquoteAux (h1 :: h2 :: rest)
  | c :: rest => c :: unquoteAux rest

/-- Python `urllib.parse.unquote` on strings. -/
def pyUnquote (s : String) : String :=
  (unquoteAux s.toList).asString

/-- Truthiness of an optional Python string (`None` and `""` are falsy). -/
def pyTruthyStr : Option String → Bool
  | none => false
  | some s => s ≠ ""

/-- The configured catalog base URL (`config.FLIBUSTA_BASE_URL`). -/
def FLIBUSTA_BASE_URL : String := "http://flibusta.is"

/-- The feed endpoint base (`OPDS_BASE_URL = f"{FLIBUSTA_BASE_URL}/opds"`). -/
def OPDS_BASE_URL : String := FLIBUSTA_BASE_URL ++ "/opds"

/-- `urllib.parse.urljoin`, specialised to the host-only base URL used by the
client: an href starting with `/` is appended to the base, other relative
hrefs are appended after a separating `/`. -/
def urljoin (base href : String) : String :=
  if charsPrefix "/".toList href.toList then base ++ href else base ++ "/" ++ href

/-- The `Author` dataclass. `name` is `Option String` because the feed parse
can store Python `None` in it (an `<atom:name>` element with no text). -/
structure Author where
  id : String
  name : Option String
  uri : Option String := some ""
  books_count : Option Nat := none
deriving DecidableEq, Repr

/-- The `DownloadLink` dataclass. -/
structure DownloadLink where
  url : String
  format : String
  mime_type : String := ""
deriving DecidableEq, Repr

/-- The `Book` dataclass. `title` is `Option String` because the feed parse
can store Python `None` in it (an `<atom:title>` element with no text). -/
structure Book where
  id : String
  title : Option String
  authors : List Author := []
  language : Option String := none
  format : Option String := none
  year : Option String := none
  description : Option String := none
  download_links : List DownloadLink := []
  cover_url : Option String := none
  size : Option String := none
deriving DecidableEq, Repr

/-- The `SearchResult` dataclass, parametrised by the item type (the Python
`items` list holds `Book`s or `Author`s depending on the operation). -/
structure SearchResult (α : Type) where
  items : List α
  total_count : Nat := 0
  has_more : Bool := false
  source : String := "http"
deriving DecidableEq, Repr

/-- A parsed XML element, the output type of `xml.etree.ElementTree.fromstring`
with the OPDS namespaces of the source already resolved to the local tag names
`entry`, `link`, `title`, `author`, `name`, `uri`, `language`, `content`. -/
inductive XmlElement where
  | mk (tag : String) (attrs : List (String × String)) (text : Option String)
      (children : List XmlElement)

/-- Tag of an element. -/
def XmlElement.tag : XmlElement → String
  | .mk t _ _ _ => t

/-- Attributes of an element. -/
def XmlElement.attrs : XmlElement → List (String × String)
  | .mk _ a _ _ => a

/-- Text of an element (`None` when the element has no text). -/
def XmlElement.text : XmlElement → Option String
  | .mk _ _ t _ => t

/-- Children of an element. -/
def XmlElement.children : XmlElement → List XmlElement
  | .mk _ _ _ c => c

/-- `elem.findall(tag)`: the direct children with the given tag. -/
def XmlElement.findall (e : XmlElement) (t : String) : List XmlElement :=
  e.children.filter (fun c => c.tag == t)

/-- `elem.find(tag)`: the first direct child with the given tag, if any. -/
def XmlElement.find (e : XmlElement) (t : String) : Option XmlElement :=
  e.children.find? (fun c => c.tag == t)

/-- `elem.get(key, default)`: attribute lookup with a default. -/
def XmlElement.get (e : XmlElement) (key dflt : String) : String :=
  match e.attrs.lookup key with
  | some v => v
  | none => dflt

/-- Outcome of one `httpx.Client.get` call: a transport error (connection
failure, timeout, ...) or a response with status code, decoded text, the
`Content-Disposition` header value (empty when absent) and the raw body. -/
inductive HttpResponse where
  | failure
  | success (status : Nat) (text : String) (contentDisposition : String) (content : List Nat)
deriving DecidableEq, Repr

/-- The environment a client operation runs in: the transport, and the
external library primitives the source calls with fixed arguments. -/
structure Env where
  /-- `self.client.get url` -/
  get : String → HttpResponse
  /-- `urllib.parse.quote(query, safe='')` -/
  quote : String → String
  /-- `re.search` of the book-anchor pattern of `_http_search_books` on one
  line, returning `(group 1, group 2)` = (book id digits, raw anchor text). -/
  bookAnchorSearch : String → Option (String × String)
  /-- `re.search` of the author-anchor pattern on one line, returning
  `(author id digits, raw anchor text)`. -/
  authorAnchorSearch : String → Option (String × String)
  /-- `finditer` of the book-anchor pattern of `_http_get_author_books` over a
  whole document, in order. -/
  bookAnchorFindAll : String → List (String × String)
  /-- `re.search` of the found-writers section pattern of
  `_http_search_authors`, returning `group 1` (the section body). -/
  authorSectionSearch : String → Option String
  /-- `finditer` of the author-anchor pattern over the section body. -/
  authorAnchorFindAll : String → List (String × String)
  /-- `xml.etree.ElementTree.fromstring`; `none` models an `ET.ParseError`. -/
  fromstring : String → Option XmlElement

/-- A Python exception value as far as the engine can observe it. -/
inductive PyErr where
  | attributeError
  | raised
deriving DecidableEq, Repr

deriving instance DecidableEq for Except

/-- A `try: ... except Exception: return None` wrapper. -/
def catchAll {α : Type} : Except PyErr α → Option α
  | .ok a => some a
  | .error _ => none

/-- One insertion step of the stable sort. -/
def pyInsert {α : Type} (le : α → α → Bool) (a : α) : List α → List α
  | [] => [a]
  | b :: l => if le a b then a :: b :: l else b :: pyInsert le a l

/-- Stable insertion sort; on a total preorder it computes the same list as
any stable sort, hence the same list as CPython's `list.sort`. -/
def pySort {α : Type} (le : α → α → Bool) : List α → List α
  | [] => []
  | a :: l => pyInsert le a (pySort le l)

/-- The sort key `lambda x: x.<field>.lower()` of the source, applied to an
optional string: `None.lower()` raises `AttributeError`. -/
def pyLowerKey : Option String → Except PyErr String
  | none => .error .attributeError
  | some s => .ok (pyLower s)

/-- The comparison induced by the sort key `lambda x: key(x).lower()`. -/
def keyLe {α : Type} (key : α → Option String) (a b : α) : Bool :=
  pyStrLe (pyLower ((key a).getD "")) (pyLower ((key b).getD ""))

/-- `xs.sort(key=lambda x: key(x).lower())`: CPython computes the key of every
element up front (raising `AttributeError` when some key source is `None`) and
then sorts stably by the keys. -/
def pySortByKey {α : Type} (key : α → Option String) (xs : List α) : Except PyErr (List α) :=
  if xs.all (fun x => (key x).isSome) then .ok (pySort (keyLe key) xs)
  else .error .attributeError

namespace FlibustaClient

/-- Translation of `FlibustaClient._clean_html`: strip tags, decode the five
HTML entities in the source's order, then strip surrounding whitespace. -/
def _clean_html (text : String) : String :=
  let t := stripTags text
  let t := pyReplace (pyReplace (pyReplace t "&lt;" "<") "&gt;" ">") "&amp;" "&"
  let t := pyReplace (pyReplace t "&nbsp;" " ") "&quot;" "\""
  pyStrip t

/-- Status codes accepted by `response.raise_for_status()` (2xx). -/
def isSuccessStatus (st : Nat) : Bool :=
  200 ≤ st && st < 300

/-- Translation of `FlibustaClient._http_request`: a transport error or a
non-2xx status (the `httpx.HTTPError` raised by `raise_for_status`) is caught
and converted to `None`; otherwise the response text is returned. -/
def _http_request (env : Env) (url : String) : Option String :=
  match env.get url with
  | .failure => none
  | .success status text _ _ => if isSuccessStatus status then some text else none

/-- The three download links synthesised for an HTML-parsed book. -/
def synthDownloadLinks (book_id : String) : List DownloadLink :=
  [{ url := FLIBUSTA_BASE_URL ++ "/b/" ++ book_id ++ "/fb2", format := "fb2" },
   { url := FLIBUSTA_BASE_URL ++ "/b/" ++ book_id ++ "/epub", format := "epub" },
   { url := FLIBUSTA_BASE_URL ++ "/b/" ++ book_id ++ "/mobi", format := "mobi" }]

/-- The per-line extraction loop of `_http_search_books`: skip lines holding a
series anchor (`'/s/' in line`), take the book anchor match, clean the title
and skip it when empty, attach at most one author anchor from the same line
(dropped when its cleaned name is empty), and synthesise the download links. -/
def httpExtractBooks (env : Env) (html : String) : List Book :=
  (pySplit html '\n').filterMap (fun line =>
    if pyIn "/s/" line then none
    else
      match env.bookAnchorSearch line with
      | none => none
      | some (book_id, raw) =>
        if _clean_html raw = "" then none
        else
          some { id := book_id, title := some (_clean_html raw),
                 authors :=
                   match env.authorAnchorSearch line with
                   | none => []
                   | some (aid, rawName) =>
                     if _clean_html rawName = "" then []
                     else [{ id := aid, name := some (_clean_html rawName) }],
                 download_links := synthDownloadLinks book_id })

/-- The duplicate-removal loop of `_http_search_books` (lines 179-184): a
`seen_ids` set accumulates identifiers, and only a book whose id has not been
seen before is appended. -/
def dedupByIdAux (seen : List String) : List Book → List Book
  | [] => []
  | b :: rest =>
    if seen.contains b.id then dedupByIdAux seen rest
    else b :: dedupByIdAux (b.id :: seen) rest

/-- Deduplication by book id starting from an empty `seen_ids` set. -/
def dedupById (books : List Book) : List Book :=
  dedupByIdAux [] books

/-- The normalisation applied by `_http_search_books` to its raw extraction:
deduplicate by id, then `unique_books.sort(key=lambda b: b.title.lower())`. -/
def httpNormalizeBooks (books : List Book) : Except PyErr (List Book) :=
  pySortByKey (fun b => b.title) (dedupById books)

/-- URL of the HTML book-search endpoint for a query and page. -/
def httpBookSearchUrl (env : Env) (query : String) (page : Nat) : String :=
  FLIBUSTA_BASE_URL ++ "/booksearch?ask=" ++ env.quote query ++ "&page=" ++ toString page

/-- Translation of `FlibustaClient._http_search_books`. -/
def _http_search_books (env : Env) (query : String) (page : Nat) :
    Option (SearchResult Book) :=
  match _http_request env (httpBookSearchUrl env query page) with
  | none => none
  | some html_content =>
    if html_content = "" then none
    else
      catchAll (do
        let books := httpExtractBooks env html_content
        let unique_books ← httpNormalizeBooks books
        let has_more := pyIn ("page=" ++ toString (page + 1)) html_content
        pure { items := unique_books, has_more := has_more, source := "http" })

/-- URL of the HTML author-search request (no page parameter in the source). -/
def httpAuthorSearchUrl (env : Env) (query : String) : String :=
  FLIBUSTA_BASE_URL ++ "/booksearch?ask=" ++ env.quote query

/-- The extraction loop of `_http_search_authors` over the found-writers
section: duplicate ids and empty cleaned names are skipped. -/
def authorDedupLoop (seen : List String) : List (String × String) → List Author
  | [] => []
  | (author_id, raw) :: rest =>
    let name := _clean_html raw
    if seen.contains author_id || name = "" then authorDedupLoop seen rest
    else
      { id := author_id, name := some name, uri := some ("/a/" ++ author_id) } ::
        authorDedupLoop (author_id :: seen) rest

/-- Translation of `FlibustaClient._http_search_authors`. -/
def _http_search_authors (env : Env) (query : String) : Option (SearchResult Author) :=
  match _http_request env (httpAuthorSearchUrl env query) with
  | none => none
  | some html_content =>
    if html_content = "" then none
    else
      catchAll (do
        let authors :=
          match env.authorSectionSearch html_content with
          | some sect => authorDedupLoop [] (env.authorAnchorFindAll sect)
          | none => []
        let sorted ← pySortByKey (fun a => a.name) authors
        pure { items := sorted, has_more := false, source := "http" })

/-- Anchor texts excluded as false positives by `_http_get_author_books`. -/
def authorBooksBanned : List String :=
  ["читать", "скачать", "fb2", "epub", "mobi", "rtf", "txt"]

/-- The extraction loop of `_http_get_author_books`: skip duplicate ids and
empty titles, then skip banned action labels (which does not mark the id as
seen, exactly as in the source), then record the book. -/
def authorBooksLoop (author_id : String) (seen : List String) :
    List (String × String) → List Book
  | [] => []
  | (book_id, raw) :: rest =>
    let title := _clean_html raw
    if seen.contains book_id || title = "" then authorBooksLoop author_id seen rest
    else if authorBooksBanned.contains (pyLower title) then authorBooksLoop author_id seen rest
    else
      { id := book_id, title := some title, authors := [{ id := author_id, name := some "" }],
        download_links := synthDownloadLinks book_id } ::
        authorBooksLoop author_id (book_id :: seen) rest

/-- The in-adapter retry of `_http_get_author_books`: the alphabetical
listing first and, when that fetch is falsy, the plain author page. -/
def authorBooksHtml (env : Env) (author_id : String) : Option String :=
  let html1 := _http_request env (FLIBUSTA_BASE_URL ++ "/a/" ++ author_id ++ "/alphabet")
  if pyTruthyStr html1 then html1
  else _http_request env (FLIBUSTA_BASE_URL ++ "/a/" ++ author_id)

/-- Translation of `FlibustaClient._http_get_author_books`. -/
def _http_get_author_books (env : Env) (author_id : String) :
    Option (SearchResult Book) :=
  if pyTruthyStr (authorBooksHtml env author_id) then
    catchAll (do
      let books :=
        authorBooksLoop author_id []
          (env.bookAnchorFindAll ((authorBooksHtml env author_id).getD ""))
      let sorted ← pySortByKey (fun b => b.title) books
      pure { items := sorted, has_more := false, source := "http" })
  else none

/-- The regex `re.search(r'/X/(\d+)', s)` for a literal marker `/X/`: the
leftmost occurrence of the marker followed by at least one digit, capturing
the maximal digit run. -/
def searchIdAfter (marker : String) : List Char → Option String
  | [] => none
  | c :: rest =>
    if charsPrefix marker.toList (c :: rest) then
      let ds := ((c :: rest).drop marker.toList.length).takeWhile Char.isDigit
      if ds.isEmpty then searchIdAfter marker rest
      else some ds.asString
    else searchIdAfter marker rest

/-- Translation of `FlibustaClient._opds_parse_author`. An absent `name`
element yields name "Unknown"; a `name` element with no text yields Python
`None` (modelled as `none`). -/
def _opds_parse_author (author_elem : XmlElement) : Author :=
  let name := author_elem.find "name"
  let uri := author_elem.find "uri"
  let author_id :=
    match uri with
    | some u =>
      match u.text with
      | some t =>
        match searchIdAfter "/a/" t.toList with
        | some m => m
        | none => ""
      | none => ""
    | none => ""
  { id := author_id,
    name := match name with | some n => n.text | none => some "Unknown",
    uri := match uri with | some u => u.text | none => some "" }

/-- The fixed MIME-to-format table of `_opds_parse_download_links`. -/
def format_map : List (String × String) :=
  [("application/fb2+zip", "fb2"), ("application/fb2", "fb2"),
   ("application/epub+zip", "epub"), ("application/epub", "epub"),
   ("application/pdf", "pdf"),
   ("application/x-mobipocket-ebook", "mobi")]

/-- Translation of `FlibustaClient._opds_parse_download_links`: keep links
whose `rel` contains "acquisition", drop the `text/html` viewer links, map the
MIME type through the table with the last `/`-separated component of the MIME
string as fallback, and absolutise hrefs that start with `/`. -/
def _opds_parse_download_links (entry : XmlElement) : List DownloadLink :=
  (entry.findall "link").filterMap (fun link =>
    if pyIn "acquisition" (link.get "rel" "") then
      if pyIn "text/html" (link.get "type" "") then none
      else
        some { url :=
                 if charsPrefix "/".toList (link.get "href" "").toList then
                   urljoin FLIBUSTA_BASE_URL (link.get "href" "")
                 else link.get "href" "",
               format :=
                 match format_map.lookup (link.get "type" "") with
                 | some f => f
                 | none => (pySplit (link.get "type" "") '/').getLastD "",
               mime_type := link.get "type" "" }
    else none)

/-- Translation of `FlibustaClient._opds_parse_book`. The id comes from the
first link child whose href contains `/b/<digits>`; an absent `title` element
yields "Unknown", while a `title` element with no text yields Python `None`. -/
def _opds_parse_book (entry : XmlElement) : Book :=
  let book_id :=
    match (entry.findall "link").findSome?
        (fun l => searchIdAfter "/b/" (l.get "href" "").toList) with
    | some m => m
    | none => ""
  let title := entry.find "title"
  { id := book_id,
    title := match title with | some t => t.text | none => some "Unknown",
    authors := (entry.findall "author").map _opds_parse_author,
    language := (entry.find "language").bind XmlElement.text,
    description := (entry.find "content").bind XmlElement.text,
    download_links := _opds_parse_download_links entry }

/-- Translation of `FlibustaClient._opds_request` (same body as
`_http_request` up to logging). -/
def _opds_request (env : Env) (url : String) : Option String :=
  match env.get url with
  | .failure => none
  | .success status text _ _ => if isSuccessStatus status then some text else none

/-- URL of the feed book-search endpoint. -/
def opdsBookSearchUrl (env : Env) (query : String) (page : Nat) : String :=
  OPDS_BASE_URL ++ "/opensearch?searchTerm=" ++ env.quote query ++
    "&searchType=books&pageNumber=" ++ toString page

/-- The per-entry book collection of the feed operations: parse every entry
and keep the books that have at least one download link. -/
def opdsBookEntries (root : XmlElement) : List Book :=
  ((root.findall "entry").map _opds_parse_book).filter (fun b => !b.download_links.isEmpty)

/-- Translation of `FlibustaClient._opds_search_books`. Only `ET.ParseError`
is caught by the source (`env.fromstring _ = none`); the `AttributeError`
raised by the title sort when a parsed title is Python `None` propagates. -/
def _opds_search_books (env : Env) (query : String) (page : Nat) :
    Except PyErr (Option (SearchResult Book)) :=
  match _opds_request env (opdsBookSearchUrl env query page) with
  | none => .ok none
  | some xml_content =>
    if xml_content = "" then .ok none
    else
      match env.fromstring xml_content with
      | none => .ok none
      | some root => do
        let has_more := (root.findall "link").any (fun l => l.get "rel" "" == "next")
        let sorted ← pySortByKey (fun b => b.title) (opdsBookEntries root)
        pure (some { items := sorted, has_more := has_more, source := "opds" })

/-- URL of the feed author-search endpoint. -/
def opdsAuthorSearchUrl (env : Env) (query : String) (page : Nat) : String :=
  OPDS_BASE_URL ++ "/opensearch?searchTerm=" ++ env.quote query ++
    "&searchType=authors&pageNumber=" ++ toString page

/-- The per-entry author collection of `_opds_search_authors`: an entry is
kept when its title element exists and has truthy text; its id comes from the
first link href containing `/author/<digits>`. -/
def opdsAuthorEntries (root : XmlElement) : List Author :=
  (root.findall "entry").filterMap (fun entry =>
    let title := entry.find "title"
    let author_id :=
      match (entry.findall "link").findSome?
          (fun l => searchIdAfter "/author/" (l.get "href" "").toList) with
      | some m => m
      | none => ""
    match title with
    | none => none
    | some t =>
      match t.text with
      | none => none
      | some txt =>
        if txt = "" then none
        else
          some ({ id := author_id, name := some txt,
                  uri := some ("/a/" ++ author_id) } : Author))

/-- Translation of `FlibustaClient._opds_search_authors`. -/
def _opds_search_authors (env : Env) (query : String) (page : Nat) :
    Except PyErr (Option (SearchResult Author)) :=
  match _opds_request env (opdsAuthorSearchUrl env query page) with
  | none => .ok none
  | some xml_content =>
    if xml_content = "" then .ok none
    else
      match env.fromstring xml_content with
      | none => .ok none
      | some root => do
        let sorted ← pySortByKey (fun a => a.name) (opdsAuthorEntries root)
        pure (some { items := sorted, has_more := false, source := "opds" })

/-- The target-URL scan of `_opds_get_author_books`: for each entry, the first
link satisfying the alphabetical test is taken, and later entries overwrite
earlier finds (the `break` only leaves the inner loop). -/
def opdsTargetUrl (root : XmlElement) : Option String :=
  (root.findall "entry").foldl (fun acc entry =>
    let title_text :=
      match entry.find "title" with
      | some t =>
        match t.text with
        | some s => if s = "" then "" else pyLower s
        | none => ""
      | none => ""
    match (entry.findall "link").find? (fun l =>
        pyIn "алфавит" title_text || pyIn "alphabet" (l.get "href" "")) with
    | some l => some (l.get "href" "")
    | none => acc) none

/-- The two-step resolution of `_opds_get_author_books`: when a truthy
alphabetical target URL was found, re-fetch it (absolutising a non-`http`
href) and re-parse; `none` models the `return None` paths, including a parse
failure of the second document caught as `ET.ParseError`. -/
def opdsAuthorRoot (env : Env) (root : XmlElement) : Option XmlElement :=
  let target := opdsTargetUrl root
  if pyTruthyStr target then
    let target_url0 := target.getD ""
    let target_url :=
      if charsPrefix "http".toList target_url0.toList then target_url0
      else urljoin FLIBUSTA_BASE_URL target_url0
    match _opds_request env target_url with
    | none => none
    | some xml2 =>
      if xml2 = "" then none
      else env.fromstring xml2
  else some root

/-- Translation of `FlibustaClient._opds_get_author_books`, including the
two-step resolution through the alphabetical listing. -/
def _opds_get_author_books (env : Env) (author_id : String) :
    Except PyErr (Option (SearchResult Book)) :=
  match _opds_request env (OPDS_BASE_URL ++ "/author/" ++ author_id) with
  | none => .ok none
  | some xml_content =>
    if xml_content = "" then .ok none
    else
      match env.fromstring xml_content with
      | none => .ok none
      | some root =>
        match opdsAuthorRoot env root with
        | none => .ok none
        | some root2 => do
          let sorted ← pySortByKey (fun b => b.title) (opdsBookEntries root2)
          pure (some { items := sorted, has_more := false, source := "opds" })

/-- Python truthiness of `result and result.items` in the orchestrator. -/
def pyTruthyResult {α : Type} : Option (SearchResult α) → Bool
  | none => false
  | some r => !r.items.isEmpty

/-- Observable behaviour of one public operation: its returned value (or the
exception it propagates), whether the feed adapter was invoked, and whether
the status callback was invoked. -/
structure OrchOutcome (α : Type) where
  outcome : Except PyErr (Option (SearchResult α))
  opdsInvoked : Bool
  callbackInvoked : Bool
deriving DecidableEq, Repr

/-- Translation of the notification block of each public operation. The
callback is modelled by the outcome of calling it on the fixed status string;
`try: status_callback(...) except Exception as e: logger.error(...)` swallows
a raising callback. -/
def notifyCallback (status_callback : Option (Except PyErr Unit)) : Except PyErr Unit :=
  match status_callback with
  | none => .ok ()
  | some (.ok _) => .ok ()
  | some (.error _) => .ok ()

/-- Translation of `FlibustaClient.search_books` (the public operation). -/
def search_books (env : Env) (query : String) (page : Nat)
    (status_callback : Option (Except PyErr Unit)) : OrchOutcome Book :=
  let result := _http_search_books env query page
  if pyTruthyResult result then
    { outcome := .ok result, opdsInvoked := false, callbackInvoked := false }
  else
    match notifyCallback status_callback with
    | .error e =>
      { outcome := .error e, opdsInvoked := false,
        callbackInvoked := status_callback.isSome }
    | .ok _ =>
      { outcome := _opds_search_books env query page,
        opdsInvoked := true, callbackInvoked := status_callback.isSome }

/-- Translation of `FlibustaClient.search_authors` (the public operation);
the HTML attempt ignores the page argument, the feed attempt receives it. -/
def search_authors (env : Env) (query : String) (page : Nat)
    (status_callback : Option (Except PyErr Unit)) : OrchOutcome Author :=
  let result := _http_search_authors env query
  if pyTruthyResult result then
    { outcome := .ok result, opdsInvoked := false, callbackInvoked := false }
  else
    match notifyCallback status_callback with
    | .error e =>
      { outcome := .error e, opdsInvoked := false,
        callbackInvoked := status_callback.isSome }
    | .ok _ =>
      { outcome := _opds_search_authors env query page,
        opdsInvoked := true, callbackInvoked := status_callback.isSome }

/-- Translation of `FlibustaClient.get_author_books` (the public operation). -/
def get_author_books (env : Env) (author_id : String)
    (status_callback : Option (Except PyErr Unit)) : OrchOutcome Book :=
  let result := _http_get_author_books env author_id
  if pyTruthyResult result then
    { outcome := .ok result, opdsInvoked := false, callbackInvoked := false }
  else
    match notifyCallback status_callback with
    | .error e =>
      { outcome := .error e, opdsInvoked := false,
        callbackInvoked := status_callback.isSome }
    | .ok _ =>
      { outcome := _opds_get_author_books env author_id,
        opdsInvoked := true, callbackInvoked := status_callback.isSome }

/-- Character class `[^"\';]+` of the filename regex in `download_book`. -/
def headerFilenameClass (c : Char) : Bool :=
  c ≠ Char.ofNat 34 && c ≠ Char.ofNat 39 && c ≠ ';'

/-- The `[*]?=` part of the filename regex (greedy optional star, then `=`). -/
def matchStarEq : List Char → Option (List Char)
  | '*' :: '=' :: rest => some rest
  | '=' :: rest => some rest
  | _ => none

/-- The `["\']?([^"\';]+)` tail of the filename regex, with the regex engine's
backtracking over the optional quote: a consumed quote cannot be re-matched by
the character class, so an empty group after a quote fails the position. -/
def matchAfterEq (cs : List Char) : Option (List Char) :=
  match cs with
  | [] => none
  | c :: rest =>
    if c = Char.ofNat 34 || c = Char.ofNat 39 then
      let grp := rest.takeWhile headerFilenameClass
      if grp.isEmpty then none else some grp
    else
      let grp := cs.takeWhile headerFilenameClass
      if grp.isEmpty then none else some grp

/-- `re.search(r'filename[*]?=["\']?([^"\';]+)', cd)`: leftmost match,
returning the captured group. -/
def searchFilenameAttr : List Char → Option String
  | [] => none
  | c :: rest =>
    if charsPrefix "filename".toList (c :: rest) then
      match matchStarEq ((c :: rest).drop 8) with
      | some afterEq =>
        match matchAfterEq afterEq with
        | some grp => some grp.asString
        | none => searchFilenameAttr rest
      | none => searchFilenameAttr rest
    else searchFilenameAttr rest

/-- The filename derivation of `download_book`: header attribute (stripped,
percent-decoded when it contains `%`), else the URL's last `/`-segment when
that segment contains a dot, else the placeholder "book". -/
def deriveFilename (content_disposition url : String) : String :=
  let filename : Option String :=
    if pyIn "filename=" content_disposition then
      match searchFilenameAttr content_disposition.toList with
      | some m =>
        let f := pyStrip m
        some (if pyIn "%" f then pyUnquote f else f)
      | none => none
    else none
  if pyTruthyStr filename then filename.getD ""
  else
    let f2 := (pySplit url '/').getLastD ""
    if pyIn "." f2 then f2 else "book"

/-- Translation of `FlibustaClient.download_book`: transport errors and
non-2xx statuses give `None`; otherwise the body bytes are returned together
with the derived filename. -/
def download_book (env : Env) (url : String) : Option (List Nat × String) :=
  match env.get url with
  | .failure => none
  | .success status _ content_disposition content =>
    if isSuccessStatus status then some (content, deriveFilename content_disposition url)
    else none

end FlibustaClient

/-! ### Order-theoretic facts about the sort comparator -/

/-- Totality of the code-point lexicographic comparison. -/
theorem charsLe_total : ∀ (a b : List Char), charsLe a b = true ∨ charsLe b a = true := by
  intro a
  induction a with
  | nil => intro b; left; rfl
  | cons x xs ih =>
    intro b
    cases b with
    | nil => right; rfl
    | cons y ys =>
      simp only [charsLe]
      by_cases hxy : x.toNat < y.toNat
      · left; simp [hxy]
      · by_cases hyx : y.toNat < x.toNat
        · right; simp [hyx]
        · simpa [hxy, hyx] using ih ys

/-- Transitivity of the code-point lexicographic comparison. -/
theorem charsLe_trans : ∀ (a b c : List Char),
    charsLe a b = true → charsLe b c = true → charsLe a c = true := by
  intro a
  induction a with
  | nil => intro b c _ _; rfl
  | cons x xs ih =>
    intro b c h1 h2
    cases b with
    | nil => simp [charsLe] at h1
    | cons y ys =>
      cases c with
      | nil => simp [charsLe] at h2
      | cons z zs =>
        simp only [charsLe] at h1 h2 ⊢
        by_cases hxz : x.toNat < z.toNat
        · rw [if_pos hxz]
        · rw [if_neg hxz]
          by_cases hzx : z.toNat < x.toNat
          · exfalso
            by_cases hxy : x.toNat < y.toNat
            · by_cases hyz : y.toNat < z.toNat
              · omega
              · rw [if_neg hyz] at h2
                by_cases hzy : z.toNat < y.toNat
                · rw [if_pos hzy] at h2; exact Bool.false_ne_true h2
                · omega
            · rw [if_neg hxy] at h1
              by_cases hyx : y.toNat < x.toNat
              · rw [if_pos hyx] at h1; exact Bool.false_ne_true h1
              · by_cases hyz : y.toNat < z.toNat
                · omega
                · rw [if_neg hyz] at h2
                  by_cases hzy : z.toNat < y.toNat
                  · rw [if_pos hzy] at h2; exact Bool.false_ne_true h2
                  · omega
          · rw [if_neg hzx]
            by_cases hxy : x.toNat < y.toNat
            · by_cases hyz : y.toNat < z.toNat
              · omega
              · rw [if_neg hyz] at h2
                by_cases hzy : z.toNat < y.toNat
                · rw [if_pos hzy] at h2; exact absurd h2 Bool.false_ne_true
                · omega
            · rw [if_neg hxy] at h1
              by_cases hyx : y.toNat < x.toNat
              · rw [if_pos hyx] at h1; exact absurd h1 Bool.false_ne_true
              · rw [if_neg hyx] at h1
                by_cases hyz : y.toNat < z.toNat
                · omega
                · rw [if_neg hyz] at h2
                  by_cases hzy : z.toNat < y.toNat
                  · rw [if_pos hzy] at h2; exact absurd h2 Bool.false_ne_true
                  · rw [if_neg hzy] at h2
                    exact ih ys zs h1 h2

/-- Totality of the keyed comparator. -/
theorem keyLe_total {α : Type} (key : α → Option String) (a b : α) :
    keyLe key a b = true ∨ keyLe key b a = true :=
  charsLe_total _ _

/-- Transitivity of the keyed comparator. -/
theorem keyLe_trans {α : Type} (key : α → Option String) (a b c : α)
    (h1 : keyLe key a b = true) (h2 : keyLe key b c = true) : keyLe key a c = true :=
  charsLe_trans _ _ _ h1 h2

/-! ### The stable sort: permutation and sortedness -/

/-- Inserting permutes to a cons. -/
theorem pyInsert_perm {α : Type} (le : α → α → Bool) (a : α) :
    ∀ l : List α, (pyInsert le a l).Perm (a :: l) := by
  intro l
  induction l with
  | nil => exact List.Perm.refl _
  | cons b t ih =>
    simp only [pyInsert]
    by_cases h : le a b = true
    · rw [if_pos h]
    · rw [if_neg h]
      exact (ih.cons b).trans (List.Perm.swap a b t)

/-- The sort permutes its input. -/
theorem pySort_perm {α : Type} (le : α → α → Bool) :
    ∀ l : List α, (pySort le l).Perm l := by
  intro l
  induction l with
  | nil => exact List.Perm.refl _
  | cons a t ih =>
    simp only [pySort]
    exact (pyInsert_perm le a (pySort le t)).trans (ih.cons a)

/-- Inserting into a sorted list keeps it sorted (for a total transitive
comparator). -/
theorem pyInsert_pairwise {α : Type} (le : α → α → Bool)
    (htot : ∀ a b, le a b = true ∨ le b a = true)
    (htrans : ∀ a b c, le a b = true → le b c = true → le a c = true) (a : α) :
    ∀ l : List α, l.Pairwise (fun x y => le x y = true) →
      (pyInsert le a l).Pairwise (fun x y => le x y = true) := by
  intro l
  induction l with
  | nil => intro _; simp [pyInsert]
  | cons b t ih =>
    intro hp
    rw [List.pairwise_cons] at hp
    obtain ⟨hb, ht⟩ := hp
    simp only [pyInsert]
    by_cases h : le a b = true
    · rw [if_pos h]
      rw [List.pairwise_cons]
      refine ⟨?_, ?_⟩
      · intro x hx
        rcases List.mem_cons.mp hx with hx | hx
        · exact hx ▸ h
        · exact htrans a b x h (hb x hx)
      · rw [List.pairwise_cons]; exact ⟨hb, ht⟩
    · rw [if_neg h]
      rw [List.pairwise_cons]
      refine ⟨?_, ih ht⟩
      intro x hx
      have hx' : x ∈ a :: t := (pyInsert_perm le a t).mem_iff.mp hx
      rcases List.mem_cons.mp hx' with heq | hmem
      · subst heq
        rcases htot x b with hxb | hbx
        · exact absurd hxb h
        · exact hbx
      · exact hb x hmem

/-- The sorted output is pairwise ordered (for a total transitive comparator). -/
theorem pySort_pairwise {α : Type} (le : α → α → Bool)
    (htot : ∀ a b, le a b = true ∨ le b a = true)
    (htrans : ∀ a b c, le a b = true → le b c = true → le a c = true) :
    ∀ l : List α, (pySort le l).Pairwise (fun x y => le x y = true) := by
  intro l
  induction l with
  | nil => simp [pySort]
  | cons a t ih =>
    simp only [pySort]
    exact pyInsert_pairwise le htot htrans a (pySort le t) ih

/-- A successful keyed sort is exactly the stable sort of the input. -/
theorem pySortByKey_eq_ok {α : Type} {key : α → Option String} {xs ys : List α}
    (h : pySortByKey key xs = .ok ys) : ys = pySort (keyLe key) xs := by
  unfold pySortByKey at h
  split at h
  · exact (Except.ok.injEq _ _).mp h |>.symm
  · exact absurd h (by simp)

/-- A successful keyed sort permutes its input. -/
theorem pySortByKey_perm {α : Type} {key : α → Option String} {xs ys : List α}
    (h : pySortByKey key xs = .ok ys) : ys.Perm xs :=
  (pySortByKey_eq_ok h) ▸ pySort_perm (keyLe key) xs

/-- A successful keyed sort is pairwise ordered by the lower-cased keys. -/
theorem pySortByKey_sorted {α : Type} {key : α → Option String} {xs ys : List α}
    (h : pySortByKey key xs = .ok ys) : ys.Pairwise (fun a b => keyLe key a b = true) :=
  (pySortByKey_eq_ok h) ▸ pySort_pairwise (keyLe key) (keyLe_total key) (keyLe_trans key) xs

/-- The keyed sort succeeds when every key is present. -/
theorem pySortByKey_ok_of_all_some {α : Type} {key : α → Option String} {xs : List α}
    (h : ∀ x ∈ xs, (key x).isSome) : pySortByKey key xs = .ok (pySort (keyLe key) xs) := by
  unfold pySortByKey
  rw [if_pos]
  exact List.all_eq_true.mpr h

/-- The only exception the keyed sort can raise is `AttributeError`. -/
theorem pySortByKey_error {α : Type} {key : α → Option String} {xs : List α} {e : PyErr}
    (h : pySortByKey key xs = .error e) : e = .attributeError := by
  unfold pySortByKey at h
  split at h
  · exact absurd h (by simp)
  · exact ((Except.error.injEq _ _).mp h).symm

/-! ### Small reduction lemmas for the exception monad -/

@[simp] theorem except_bind_ok {ε α β : Type} (a : α) (f : α → Except ε β) :
    (Except.ok a >>= f) = f a := rfl

@[simp] theorem except_bind_error {ε α β : Type} (e : ε) (f : α → Except ε β) :
    ((Except.error e : Except ε α) >>= f) = Except.error e := rfl

@[simp] theorem catchAll_ok {α : Type} (a : α) : catchAll (Except.ok a : Except PyErr α) = some a := rfl

@[simp] theorem catchAll_error {α : Type} (e : PyErr) :
    catchAll (Except.error e : Except PyErr α) = none := rfl

/-- The notification block never lets a callback exception escape. -/
theorem notifyCallback_ok (cb : Option (Except PyErr Unit)) :
    FlibustaClient.notifyCallback cb = .ok () := by
  match cb with
  | none => rfl
  | some (.ok _) => rfl
  | some (.error _) => rfl

namespace FlibustaClient

/-! ### Deduplication facts -/

/-- The dedup loop emits pairwise-distinct ids, none of which is in `seen`. -/
theorem dedupByIdAux_nodup : ∀ (l : List Book) (seen : List String),
    ((dedupByIdAux seen l).map (fun b => b.id)).Nodup ∧
      ∀ b ∈ dedupByIdAux seen l, seen.contains b.id = false := by
  intro l
  induction l with
  | nil =>
    intro seen
    refine ⟨List.nodup_nil, ?_⟩
    intro b hb
    cases hb
  | cons x rest ih =>
    intro seen
    simp only [dedupByIdAux]
    by_cases h : seen.contains x.id = true
    · rw [if_pos h]
      exact ih seen
    · rw [if_neg h]
      obtain ⟨ihn, ihs⟩ := ih (x.id :: seen)
      refine ⟨?_, ?_⟩
      · simp only [List.map_cons, List.nodup_cons]
        refine ⟨?_, ihn⟩
        intro hmem
        obtain ⟨b, hb, hbid⟩ := List.mem_map.mp hmem
        have hc := ihs b hb
        simp only [List.contains_cons] at hc
        rw [hbid] at hc
        simp at hc
      · intro b hb
        rcases List.mem_cons.mp hb with heq | hmem
        · subst heq
          simpa using h
        · have hc := ihs b hmem
          simp only [List.contains_cons, Bool.or_eq_false_iff] at hc
          exact hc.2

/-- Ids of the full dedup are pairwise distinct. -/
theorem dedupById_nodup (books : List Book) :
    ((dedupById books).map (fun b => b.id)).Nodup :=
  (dedupByIdAux_nodup books []).1

/-- The author-bibliography extraction loop also emits pairwise-distinct ids
outside `seen`. -/
theorem authorBooksLoop_nodup (aid : String) : ∀ (l : List (String × String)) (seen : List String),
    ((authorBooksLoop aid seen l).map (fun b => b.id)).Nodup ∧
      ∀ b ∈ authorBooksLoop aid seen l, seen.contains b.id = false := by
  intro l
  induction l with
  | nil =>
    intro seen
    refine ⟨List.nodup_nil, ?_⟩
    intro b hb
    cases hb
  | cons p rest ih =>
    intro seen
    obtain ⟨bid, raw⟩ := p
    simp only [authorBooksLoop]
    by_cases h1 : (seen.contains bid || decide (_clean_html raw = "")) = true
    · rw [if_pos h1]
      exact ih seen
    · rw [if_neg h1]
      by_cases h2 : authorBooksBanned.contains (pyLower (_clean_html raw)) = true
      · rw [if_pos h2]
        exact ih seen
      · rw [if_neg h2]
        obtain ⟨ihn, ihs⟩ := ih (bid :: seen)
        refine ⟨?_, ?_⟩
        · simp only [List.map_cons, List.nodup_cons]
          refine ⟨?_, ihn⟩
          intro hmem
          obtain ⟨b, hb, hbid⟩ := List.mem_map.mp hmem
          have hc := ihs b hb
          simp only [List.contains_cons] at hc
          rw [hbid] at hc
          simp at hc
        · intro b hb
          rcases List.mem_cons.mp hb with heq | hmem
          · subst heq
            simp only [Bool.or_eq_true, not_or] at h1
            simpa using h1.1
          · have hc := ihs b hmem
            simp only [List.contains_cons, Bool.or_eq_false_iff] at hc
            exact hc.2

/-- Filtering the dedup output for an id already in `seen` gives nothing. -/
theorem dedupByIdAux_filter_seen (i : String) : ∀ (l : List Book) (seen : List String),
    seen.contains i = true →
      (dedupByIdAux seen l).filter (fun b => b.id == i) = [] := by
  intro l
  induction l with
  | nil => intro seen _; rfl
  | cons x rest ih =>
    intro seen hseen
    simp only [dedupByIdAux]
    by_cases h : seen.contains x.id = true
    · rw [if_pos h]
      exact ih seen hseen
    · rw [if_neg h]
      have hne : (x.id == i) = false := by
        apply beq_false_of_ne
        intro heq
        exact h (heq ▸ hseen)
      rw [List.filter_cons_of_neg (by simp [hne])]
      apply ih (x.id :: seen)
      rw [List.contains_cons, hseen]
      have h1 : (i == x.id) = false := by
        rw [beq_eq_false_iff_ne]
        intro he
        rw [he, beq_self_eq_true] at hne
        exact absurd hne (by decide)
      rw [h1]
      rfl

/-- Filtering the dedup output for an id not in `seen` gives exactly the first
occurrence of that id in the input, in the sense of `List.find?`. -/
theorem dedupByIdAux_filter_first (i : String) : ∀ (l : List Book) (seen : List String),
    seen.contains i = false →
      (dedupByIdAux seen l).filter (fun b => b.id == i) =
        (match l.find? (fun b => b.id == i) with
         | some b => [b]
         | none => []) := by
  intro l
  induction l with
  | nil => intro seen _; rfl
  | cons x rest ih =>
    intro seen hseen
    simp only [dedupByIdAux]
    by_cases h : seen.contains x.id = true
    · have hne : (x.id == i) = false := by
        apply beq_false_of_ne
        intro heq
        rw [heq] at h
        rw [h] at hseen
        exact absurd hseen (by decide)
      rw [if_pos h, List.find?_cons_of_neg rest (by simp [hne])]
      exact ih seen hseen
    · rw [if_neg h]
      by_cases hx : (x.id == i) = true
      · rw [List.filter_cons_of_pos (by simp [hx]), List.find?_cons_of_pos rest (by simp [hx])]
        have hrest : (dedupByIdAux (x.id :: seen) rest).filter (fun b => b.id == i) = [] := by
          apply dedupByIdAux_filter_seen
          rw [List.contains_cons]
          have h1 : (i == x.id) = true := by
            rw [beq_iff_eq] at hx ⊢
            exact hx.symm
          rw [h1, Bool.true_or]
        rw [hrest]
      · rw [List.filter_cons_of_neg (by simp [hx]), List.find?_cons_of_neg rest (by simp [hx])]
        apply ih
        rw [List.contains_cons, hseen]
        have h1 : (i == x.id) = false := by
          rw [beq_eq_false_iff_ne]
          intro he
          rw [he, beq_self_eq_true] at hx
          exact hx rfl
        rw [h1]
        rfl

end FlibustaClient

@[simp] theorem except_pure {ε α : Type} (a : α) : (pure a : Except ε α) = Except.ok a := rfl

namespace FlibustaClient

/-! ### Shape lemmas for the adapter operations -/

/-- Characterisation of a successful HTML book search: the response text was
fetched and truthy, the normalisation succeeded, and the result is built from
the normalised items, the substring pagination heuristic, and source "http". -/
theorem _http_search_books_eq_some {env : Env} {q : String} {p : Nat} {r : SearchResult Book}
    (h : _http_search_books env q p = some r) :
    ∃ html, _http_request env (httpBookSearchUrl env q p) = some html ∧ html ≠ "" ∧
      ∃ items, httpNormalizeBooks (httpExtractBooks env html) = .ok items ∧
        r = { items := items, total_count := 0,
              has_more := pyIn ("page=" ++ toString (p + 1)) html, source := "http" } := by
  unfold _http_search_books at h
  split at h
  · exact absurd h (by simp)
  next html hreq =>
    split at h
    · exact absurd h (by simp)
    next hh =>
      refine ⟨html, hreq, hh, ?_⟩
      cases hn : httpNormalizeBooks (httpExtractBooks env html) with
      | error e =>
        simp only [hn, except_bind_error, catchAll_error] at h
        exact absurd h (by simp)
      | ok items =>
        simp only [hn, except_bind_ok, except_pure, catchAll_ok, Option.some.injEq] at h
        exact ⟨items, rfl, h.symm⟩

end FlibustaClient

namespace FlibustaClient

/-- A successful HTML author search carries source "http". -/
theorem _http_search_authors_source {env : Env} {q : String} {r : SearchResult Author}
    (h : _http_search_authors env q = some r) : r.source = "http" := by
  unfold _http_search_authors at h
  split at h
  · exact absurd h (by simp)
  next html hreq =>
    split at h
    · exact absurd h (by simp)
    next hh =>
      cases hn : pySortByKey (fun a => a.name)
          (match env.authorSectionSearch html with
           | some sect => authorDedupLoop [] (env.authorAnchorFindAll sect)
           | none => []) with
      | error e =>
        simp only [hn, except_bind_error, catchAll_error] at h
        exact absurd h (by simp)
      | ok sorted =>
        simp only [hn, except_bind_ok, except_pure, catchAll_ok, Option.some.injEq] at h
        rw [← h]

/-- Characterisation of a successful HTML author-bibliography fetch. -/
theorem _http_get_author_books_eq_some {env : Env} {aid : String} {r : SearchResult Book}
    (h : _http_get_author_books env aid = some r) :
    ∃ html items,
      pySortByKey (fun b => b.title) (authorBooksLoop aid [] (env.bookAnchorFindAll html)) =
        .ok items ∧
      r = { items := items, total_count := 0, has_more := false, source := "http" } := by
  unfold _http_get_author_books at h
  split at h
  next ht =>
    refine ⟨(authorBooksHtml env aid).getD "", ?_⟩
    cases hn : pySortByKey (fun b => b.title)
        (authorBooksLoop aid []
          (env.bookAnchorFindAll ((authorBooksHtml env aid).getD ""))) with
    | error e =>
      simp only [hn, except_bind_error, catchAll_error] at h
      exact absurd h (by simp)
    | ok items =>
      simp only [hn, except_bind_ok, except_pure, catchAll_ok, Option.some.injEq] at h
      exact ⟨items, rfl, h.symm⟩
  next ht =>
    exact absurd h (by simp)

end FlibustaClient

namespace FlibustaClient

/-- Characterisation of a feed book search that returns a result: the items
are a successful keyed title sort of the parsed entries, and the source is
"opds". -/
theorem _opds_search_books_shape {env : Env} {q : String} {p : Nat} {r : SearchResult Book}
    (h : _opds_search_books env q p = .ok (some r)) :
    (∃ root, env.fromstring ((_opds_request env (opdsBookSearchUrl env q p)).getD "") = some root ∧
       pySortByKey (fun b => b.title) (opdsBookEntries root) = .ok r.items) ∧
    r.source = "opds" := by
  unfold _opds_search_books at h
  split at h
  · exact absurd h (by simp)
  next xml_content hreq =>
    split at h
    · exact absurd h (by simp)
    next hh =>
      split at h
      · exact absurd h (by simp)
      next root hx =>
        cases hn : pySortByKey (fun b => b.title) (opdsBookEntries root) with
        | error e =>
          simp only [hn, except_bind_error] at h
          exact absurd h (by simp)
        | ok sorted =>
          simp only [hn, except_bind_ok, except_pure, Except.ok.injEq, Option.some.injEq] at h
          rw [← h]
          exact ⟨⟨root, by rw [hreq]; exact hx, hn⟩, rfl⟩

/-- The only exception a feed book search can propagate is the
`AttributeError` of the title sort. -/
theorem _opds_search_books_error {env : Env} {q : String} {p : Nat} {e : PyErr}
    (h : _opds_search_books env q p = .error e) : e = .attributeError := by
  unfold _opds_search_books at h
  split at h
  · exact absurd h (by simp)
  next xml_content hreq =>
    split at h
    · exact absurd h (by simp)
    next hh =>
      split at h
      · exact absurd h (by simp)
      next root hx =>
        cases hn : pySortByKey (fun b => b.title) (opdsBookEntries root) with
        | error e2 =>
          simp only [hn, except_bind_error, Except.error.injEq] at h
          rw [← h]
          exact pySortByKey_error hn
        | ok sorted =>
          simp only [hn, except_bind_ok, except_pure] at h
          exact absurd h (by simp)

/-- Characterisation of a feed author-bibliography fetch that returns a
result: the items are a successful keyed title sort, and the source is
"opds". -/
theorem _opds_get_author_books_shape {env : Env} {aid : String} {r : SearchResult Book}
    (h : _opds_get_author_books env aid = .ok (some r)) :
    (∃ root2, pySortByKey (fun b => b.title) (opdsBookEntries root2) = .ok r.items) ∧
    r.source = "opds" := by
  unfold _opds_get_author_books at h
  split at h
  · exact absurd h (by simp)
  next xml_content hreq =>
    split at h
    · exact absurd h (by simp)
    next hh =>
      split at h
      · exact absurd h (by simp)
      next root hx =>
        split at h
        · exact absurd h (by simp)
        next root2 hs =>
          cases hn : pySortByKey (fun b => b.title) (opdsBookEntries root2) with
          | error e =>
            simp only [hn, except_bind_error] at h
            exact absurd h (by simp)
          | ok sorted =>
            simp only [hn, except_bind_ok, except_pure, Except.ok.injEq, Option.some.injEq] at h
            rw [← h]
            exact ⟨⟨root2, hn⟩, rfl⟩

/-- The only exception a feed author-bibliography fetch can propagate is the
`AttributeError` of the title sort. -/
theorem _opds_get_author_books_error {env : Env} {aid : String} {e : PyErr}
    (h : _opds_get_author_books env aid = .error e) : e = .attributeError := by
  unfold _opds_get_author_books at h
  split at h
  · exact absurd h (by simp)
  next xml_content hreq =>
    split at h
    · exact absurd h (by simp)
    next hh =>
      split at h
      · exact absurd h (by simp)
      next root hx =>
        split at h
        · exact absurd h (by simp)
        next root2 hs =>
          cases hn : pySortByKey (fun b => b.title) (opdsBookEntries root2) with
          | error e2 =>
            simp only [hn, except_bind_error, Except.error.injEq] at h
            rw [← h]
            exact pySortByKey_error hn
          | ok sorted =>
            simp only [hn, except_bind_ok, except_pure] at h
            exact absurd h (by simp)

/-- A feed author search that returns a result carries source "opds". -/
theorem _opds_search_authors_source {env : Env} {q : String} {p : Nat} {r : SearchResult Author}
    (h : _opds_search_authors env q p = .ok (some r)) : r.source = "opds" := by
  unfold _opds_search_authors at h
  split at h
  · exact absurd h (by simp)
  next xml_content hreq =>
    split at h
    · exact absurd h (by simp)
    next hh =>
      split at h
      · exact absurd h (by simp)
      next root hx =>
        cases hn : pySortByKey (fun a => a.name) (opdsAuthorEntries root) with
        | error e =>
          simp only [hn, except_bind_error] at h
          exact absurd h (by simp)
        | ok sorted =>
          simp only [hn, except_bind_ok, except_pure, Except.ok.injEq, Option.some.injEq] at h
          rw [← h]

end FlibustaClient

namespace FlibustaClient

/-! ### Orchestrator reduction lemmas -/

/-- A nonempty result is truthy. -/
theorem pyTruthyResult_of_ne {α : Type} {r : SearchResult α} (hne : r.items ≠ []) :
    pyTruthyResult (some r) = true := by
  cases hitems : r.items with
  | nil => exact absurd hitems hne
  | cons a t => simp [pyTruthyResult, hitems]

/-- When the HTML book search is truthy the orchestrator returns it as is. -/
theorem search_books_http_hit {env : Env} {q : String} {p : Nat}
    {cb : Option (Except PyErr Unit)} {r : SearchResult Book}
    (hr : _http_search_books env q p = some r) (hne : r.items ≠ []) :
    search_books env q p cb =
      { outcome := .ok (some r), opdsInvoked := false, callbackInvoked := false } := by
  unfold search_books
  rw [hr, if_pos (pyTruthyResult_of_ne hne)]

/-- When the HTML book search is falsy the orchestrator notifies the callback
and returns the feed adapter's outcome. -/
theorem search_books_fallback {env : Env} {q : String} {p : Nat}
    {cb : Option (Except PyErr Unit)}
    (hf : pyTruthyResult (_http_search_books env q p) = false) :
    search_books env q p cb =
      { outcome := _opds_search_books env q p, opdsInvoked := true,
        callbackInvoked := cb.isSome } := by
  unfold search_books
  rw [if_neg (by simp [hf]), notifyCallback_ok]

/-- When the HTML author search is truthy the orchestrator returns it as is. -/
theorem search_authors_http_hit {env : Env} {q : String} {p : Nat}
    {cb : Option (Except PyErr Unit)} {r : SearchResult Author}
    (hr : _http_search_authors env q = some r) (hne : r.items ≠ []) :
    search_authors env q p cb =
      { outcome := .ok (some r), opdsInvoked := false, callbackInvoked := false } := by
  unfold search_authors
  rw [hr, if_pos (pyTruthyResult_of_ne hne)]

/-- When the HTML author search is falsy the orchestrator notifies the
callback and returns the feed adapter's outcome. -/
theorem search_authors_fallback {env : Env} {q : String} {p : Nat}
    {cb : Option (Except PyErr Unit)}
    (hf : pyTruthyResult (_http_search_authors env q) = false) :
    search_authors env q p cb =
      { outcome := _opds_search_authors env q p, opdsInvoked := true,
        callbackInvoked := cb.isSome } := by
  unfold search_authors
  rw [if_neg (by simp [hf]), notifyCallback_ok]

/-- When the HTML bibliography fetch is truthy the orchestrator returns it as
is. -/
theorem get_author_books_http_hit {env : Env} {aid : String}
    {cb : Option (Except PyErr Unit)} {r : SearchResult Book}
    (hr : _http_get_author_books env aid = some r) (hne : r.items ≠ []) :
    get_author_books env aid cb =
      { outcome := .ok (some r), opdsInvoked := false, callbackInvoked := false } := by
  unfold get_author_books
  rw [hr, if_pos (pyTruthyResult_of_ne hne)]

/-- When the HTML bibliography fetch is falsy the orchestrator notifies the
callback and returns the feed adapter's outcome. -/
theorem get_author_books_fallback {env : Env} {aid : String}
    {cb : Option (Except PyErr Unit)}
    (hf : pyTruthyResult (_http_get_author_books env aid) = false) :
    get_author_books env aid cb =
      { outcome := _opds_get_author_books env aid, opdsInvoked := true,
        callbackInvoked := cb.isSome } := by
  unfold get_author_books
  rw [if_neg (by simp [hf]), notifyCallback_ok]

end FlibustaClient

namespace FlibustaClient

/-! ### The claim theorems -/

/-- C1: whenever the HTML adapter answers an operation with at least one
item, the corresponding public operation (`search_books`, `search_authors`,
`get_author_books`) returns exactly that HTML result, whose source is
"http"; the feed adapter is never invoked and the status callback is never
called. -/
theorem claim1_http_priority (env : Env) (query : String) (page : Nat)
    (author_id : String) (cb : Option (Except PyErr Unit)) :
    (∀ r : SearchResult Book, _http_search_books env query page = some r → r.items ≠ [] →
       search_books env query page cb =
         { outcome := .ok (some r), opdsInvoked := false, callbackInvoked := false } ∧
       r.source = "http") ∧
    (∀ r : SearchResult Author, _http_search_authors env query = some r → r.items ≠ [] →
       search_authors env query page cb =
         { outcome := .ok (some r), opdsInvoked := false, callbackInvoked := false } ∧
       r.source = "http") ∧
    (∀ r : SearchResult Book, _http_get_author_books env author_id = some r → r.items ≠ [] →
       get_author_books env author_id cb =
         { outcome := .ok (some r), opdsInvoked := false, callbackInvoked := false } ∧
       r.source = "http") := by
  refine ⟨?_, ?_, ?_⟩
  · intro r hr hne
    refine ⟨search_books_http_hit hr hne, ?_⟩
    obtain ⟨html, _, _, items, _, hrec⟩ := _http_search_books_eq_some hr
    rw [hrec]
  · intro r hr hne
    exact ⟨search_authors_http_hit hr hne, _http_search_authors_source hr⟩
  · intro r hr hne
    refine ⟨get_author_books_http_hit hr hne, ?_⟩
    obtain ⟨html, items, _, hrec⟩ := _http_get_author_books_eq_some hr
    rw [hrec]

/-- C2: whenever the HTML adapter returns zero items or fails, the public
operation invokes the feed adapter (notifying the callback if supplied) and
returns whatever that adapter produces as its own outcome; and any non-absent
result the feed adapter produces carries source "opds". -/
theorem claim2_fallback_source (env : Env) (query : String) (page : Nat)
    (author_id : String) (cb : Option (Except PyErr Unit)) :
    (pyTruthyResult (_http_search_books env query page) = false →
       search_books env query page cb =
         { outcome := _opds_search_books env query page, opdsInvoked := true,
           callbackInvoked := cb.isSome } ∧
       ∀ r, _opds_search_books env query page = .ok (some r) → r.source = "opds") ∧
    (pyTruthyResult (_http_search_authors env query) = false →
       search_authors env query page cb =
         { outcome := _opds_search_authors env query page, opdsInvoked := true,
           callbackInvoked := cb.isSome } ∧
       ∀ r, _opds_search_authors env query page = .ok (some r) → r.source = "opds") ∧
    (pyTruthyResult (_http_get_author_books env author_id) = false →
       get_author_books env author_id cb =
         { outcome := _opds_get_author_books env author_id, opdsInvoked := true,
           callbackInvoked := cb.isSome } ∧
       ∀ r, _opds_get_author_books env author_id = .ok (some r) → r.source = "opds") := by
  refine ⟨?_, ?_, ?_⟩
  · intro hf
    exact ⟨search_books_fallback hf, fun r hr => (_opds_search_books_shape hr).2⟩
  · intro hf
    exact ⟨search_authors_fallback hf, fun r hr => _opds_search_authors_source hr⟩
  · intro hf
    exact ⟨get_author_books_fallback hf, fun r hr => (_opds_get_author_books_shape hr).2⟩

/-- C10: a status callback that raises during the fallback notification is
caught: the public operation still invokes the feed adapter, returns the feed
adapter's outcome, and behaves exactly as it would with no callback at all. -/
theorem claim10_callback_exception (env : Env) (query : String) (page : Nat)
    (author_id : String) (e : PyErr) :
    (pyTruthyResult (_http_search_books env query page) = false →
       search_books env query page (some (.error e)) =
         { outcome := _opds_search_books env query page, opdsInvoked := true,
           callbackInvoked := true } ∧
       (search_books env query page (some (.error e))).outcome =
         (search_books env query page none).outcome) ∧
    (pyTruthyResult (_http_search_authors env query) = false →
       search_authors env query page (some (.error e)) =
         { outcome := _opds_search_authors env query page, opdsInvoked := true,
           callbackInvoked := true } ∧
       (search_authors env query page (some (.error e))).outcome =
         (search_authors env query page none).outcome) ∧
    (pyTruthyResult (_http_get_author_books env author_id) = false →
       get_author_books env author_id (some (.error e)) =
         { outcome := _opds_get_author_books env author_id, opdsInvoked := true,
           callbackInvoked := true } ∧
       (get_author_books env author_id (some (.error e))).outcome =
         (get_author_books env author_id none).outcome) := by
  refine ⟨?_, ?_, ?_⟩
  · intro hf
    refine ⟨search_books_fallback hf, ?_⟩
    rw [search_books_fallback hf, search_books_fallback hf]
  · intro hf
    refine ⟨search_authors_fallback hf, ?_⟩
    rw [search_authors_fallback hf, search_authors_fallback hf]
  · intro hf
    refine ⟨get_author_books_fallback hf, ?_⟩
    rw [get_author_books_fallback hf, get_author_books_fallback hf]

end FlibustaClient

namespace FlibustaClient

/-! ### Concrete fixtures used by counterexamples and witnesses -/

/-- A feed entry with one `fb2+zip` acquisition link. -/
def entryFb2 : XmlElement :=
  .mk "entry" [] none
    [.mk "link" [("rel", "http://opds-spec.org/acquisition/open-access"),
                 ("href", "/b/5"), ("type", "application/fb2+zip")] none []]

/-- A feed entry with one acquisition link of the unmapped MIME type
`application/x-custom`. -/
def entryCustom : XmlElement :=
  .mk "entry" [] none
    [.mk "link" [("rel", "http://opds-spec.org/acquisition/open-access"),
                 ("href", "/b/5"), ("type", "application/x-custom")] none []]

/-- A feed whose only entry has a `<title/>` element with no text and a valid
acquisition link: the parsed book's title is Python `None`. -/
def feedBadTitle : XmlElement :=
  .mk "feed" [] none
    [.mk "entry" [] none
      [.mk "title" [] none [],
       .mk "link" [("rel", "http://opds-spec.org/acquisition/open-access"),
                   ("href", "/b/1"), ("type", "application/fb2+zip")] none []]]

/-- A feed with two entries that both link `/b/1` (duplicate book id). -/
def feedDup : XmlElement :=
  .mk "feed" [] none
    [.mk "entry" [] none
      [.mk "title" [] (some "B") [],
       .mk "link" [("rel", "http://opds-spec.org/acquisition/open-access"),
                   ("href", "/b/1"), ("type", "application/fb2+zip")] none []],
     .mk "entry" [] none
      [.mk "title" [] (some "A") [],
       .mk "link" [("rel", "http://opds-spec.org/acquisition/open-access"),
                   ("href", "/b/1"), ("type", "application/fb2+zip")] none []]]

/-- An environment whose HTML operations all succeed with one extracted item. -/
def envHtmlOk : Env :=
  { get := fun _ => .success 200 "line1" "" [],
    quote := fun s => s,
    bookAnchorSearch := fun _ => some ("7", "Title"),
    authorAnchorSearch := fun _ => none,
    bookAnchorFindAll := fun _ => [("7", "Title")],
    authorSectionSearch := fun _ => some "sect",
    authorAnchorFindAll := fun _ => [("3", "Au")],
    fromstring := fun _ => none }

/-- An environment in which every transport call fails. -/
def envFallback : Env :=
  { get := fun _ => .failure,
    quote := fun s => s,
    bookAnchorSearch := fun _ => none,
    authorAnchorSearch := fun _ => none,
    bookAnchorFindAll := fun _ => [],
    authorSectionSearch := fun _ => none,
    authorAnchorFindAll := fun _ => [],
    fromstring := fun _ => none }

/-- An environment whose feed answers with `feedBadTitle` while the HTML
extraction finds nothing. -/
def envBadTitle : Env :=
  { get := fun _ => .success 200 "xml" "" [],
    quote := fun s => s,
    bookAnchorSearch := fun _ => none,
    authorAnchorSearch := fun _ => none,
    bookAnchorFindAll := fun _ => [],
    authorSectionSearch := fun _ => none,
    authorAnchorFindAll := fun _ => [],
    fromstring := fun _ => some feedBadTitle }

/-- An environment whose feed answers with `feedDup` while the HTML
extraction finds nothing. -/
def envDup : Env :=
  { get := fun _ => .success 200 "xml" "" [],
    quote := fun s => s,
    bookAnchorSearch := fun _ => none,
    authorAnchorSearch := fun _ => none,
    bookAnchorFindAll := fun _ => [],
    authorSectionSearch := fun _ => none,
    authorAnchorFindAll := fun _ => [],
    fromstring := fun _ => some feedDup }

/-- An environment returning an empty body with no headers (used for the
download counterexample: no `Content-Disposition`). -/
def envPlain : Env :=
  { get := fun _ => .success 200 "" "" [],
    quote := fun s => s,
    bookAnchorSearch := fun _ => none,
    authorAnchorSearch := fun _ => none,
    bookAnchorFindAll := fun _ => [],
    authorSectionSearch := fun _ => none,
    authorAnchorFindAll := fun _ => [],
    fromstring := fun _ => none }

/-- An environment whose HTML response contains a next-page marker but no
book anchors. -/
def envNextPage : Env :=
  { get := fun _ => .success 200 "x page=1 y" "" [],
    quote := fun s => s,
    bookAnchorSearch := fun _ => none,
    authorAnchorSearch := fun _ => none,
    bookAnchorFindAll := fun _ => [],
    authorSectionSearch := fun _ => none,
    authorAnchorFindAll := fun _ => [],
    fromstring := fun _ => none }

/-- The HTML book-search result produced in `envHtmlOk`. -/
def resHtmlBooks : SearchResult Book :=
  { items := [{ id := "7", title := some "Title", authors := [],
                download_links := synthDownloadLinks "7" }],
    total_count := 0, has_more := false, source := "http" }

/-- The HTML author-search result produced in `envHtmlOk`. -/
def resHtmlAuthors : SearchResult Author :=
  { items := [{ id := "3", name := some "Au", uri := some "/a/3" }],
    total_count := 0, has_more := false, source := "http" }

/-- The HTML bibliography result produced in `envHtmlOk` for author "9". -/
def resHtmlAuthorBooks : SearchResult Book :=
  { items := [{ id := "7", title := some "Title",
                authors := [{ id := "9", name := some "" }],
                download_links := synthDownloadLinks "7" }],
    total_count := 0, has_more := false, source := "http" }

/-- A parsed duplicate-id book of `feedDup` with the given title. -/
def bookDup (t : String) : Book :=
  { id := "1", title := some t, authors := [],
    download_links := [{ url := "http://flibusta.is/b/1", format := "fb2",
                         mime_type := "application/fb2+zip" }] }

/-- The feed book-search result produced in `envDup`. -/
def resDup : SearchResult Book :=
  { items := [bookDup "A", bookDup "B"],
    total_count := 0, has_more := false, source := "opds" }

/-- A raw extraction holding the same id twice with different titles. -/
def booksDupTitles : List Book :=
  [{ id := "1", title := some "Zebra" }, { id := "1", title := some "apple" }]

/-- C3 (amended): the feed book search converts transport errors, non-2xx
statuses and XML parse failures into an absent result, and the only exception
it can propagate is the `AttributeError` raised by the title sort; the HTML
extraction skips entries whose cleaned title is empty. -/
theorem claim3_adapter_failure_policy (env : Env) (query : String) (page : Nat) (html : String) :
    (∀ e, _opds_search_books env query page = .error e → e = .attributeError) ∧
    (env.get (opdsBookSearchUrl env query page) = .failure →
       _opds_search_books env query page = .ok none) ∧
    (∀ st t cd ct, env.get (opdsBookSearchUrl env query page) = .success st t cd ct →
       isSuccessStatus st = false → _opds_search_books env query page = .ok none) ∧
    (∀ st t cd ct, env.get (opdsBookSearchUrl env query page) = .success st t cd ct →
       isSuccessStatus st = true → t ≠ "" → env.fromstring t = none →
       _opds_search_books env query page = .ok none) ∧
    (∀ b ∈ httpExtractBooks env html, b.title.getD "" ≠ "") := by
  refine ⟨fun e h => _opds_search_books_error h, ?_, ?_, ?_, ?_⟩
  · intro hget
    unfold _opds_search_books _opds_request
    rw [hget]
  · intro st t cd ct hget hst
    unfold _opds_search_books _opds_request
    rw [hget]
    simp [hst]
  · intro st t cd ct hget hst ht hfs
    unfold _opds_search_books _opds_request
    rw [hget]
    simp [hst, ht, hfs]
  · intro b hb
    unfold httpExtractBooks at hb
    obtain ⟨line, hline, hf⟩ := List.mem_filterMap.mp hb
    split at hf
    · exact absurd hf (by simp)
    · split at hf
      · exact absurd hf (by simp)
      next bid raw heq =>
        split at hf
        next h2 => exact absurd hf (by simp)
        next h2 =>
          have hbe := (Option.some.injEq _ _).mp hf
          rw [← hbe]
          simpa using h2

set_option maxHeartbeats 1000000 in
/-- C4 (amended): a successful download returns the body with the derived
filename; a header filename attribute wins and is percent-decoded when it
contains `%`; with no header attribute the URL's final path segment is used
only when it contains a dot, and otherwise the placeholder "book" is used —
in particular the URL `.../b/123/epub` yields "book", not "epub". -/
theorem claim4_filename_derivation (env : Env) (url cd : String) :
    (∀ st text ct, env.get url = .success st text cd ct → isSuccessStatus st = true →
       download_book env url = some (ct, deriveFilename cd url)) ∧
    (∀ u, deriveFilename "attachment; filename=\"book%20one.fb2\"" u = "book one.fb2") ∧
    (pyIn "filename=" cd = false →
       deriveFilename cd url =
         (if pyIn "." ((pySplit url '/').getLastD "") = true
          then (pySplit url '/').getLastD "" else "book")) ∧
    deriveFilename "" "http://flibusta.is/b/123/epub" = "book" := by
  refine ⟨?_, ?_, ?_, by decide⟩
  · intro st text ct hget hst
    unfold download_book
    rw [hget]
    simp [hst]
  · intro u
    rfl
  · intro h
    unfold deriveFilename
    rw [if_neg (by simp [h, pyTruthyStr])]

/-- C5 (amended): every feed acquisition link's format token is the fixed
table's entry for its MIME type, with the last `/`-component of the MIME
string as fallback; `application/fb2+zip` maps to "fb2" while the unmapped
`application/x-custom` maps to "x-custom" (its full subtype). -/
theorem claim5_format_mapping (entry : XmlElement) :
    (∀ dl ∈ _opds_parse_download_links entry,
       dl.format = ((format_map.lookup dl.mime_type).getD
         ((pySplit dl.mime_type '/').getLastD ""))) ∧
    _opds_parse_download_links entryFb2 =
      [{ url := "http://flibusta.is/b/5", format := "fb2",
         mime_type := "application/fb2+zip" }] ∧
    _opds_parse_download_links entryCustom =
      [{ url := "http://flibusta.is/b/5", format := "x-custom",
         mime_type := "application/x-custom" }] := by
  refine ⟨?_, by decide, by decide⟩
  intro dl hdl
  unfold _opds_parse_download_links at hdl
  obtain ⟨link, hlink, hf⟩ := List.mem_filterMap.mp hdl
  split at hf
  next h1 =>
    split at hf
    · exact absurd hf (by simp)
    next h2 =>
      have hbe := (Option.some.injEq _ _).mp hf
      rw [← hbe]
      cases hm : format_map.lookup (link.get "type" "") with
      | none => simp [hm]
      | some f => simp [hm]
  next h1 =>
    exact absurd hf (by simp)

/-- C6 (amended): both HTML adapter book operations return pairwise-distinct
book ids (their extraction deduplicates through a seen-set); the feed adapter
performs no such deduplication. -/
theorem claim6_html_unique_ids (env : Env) (query : String) (page : Nat) (author_id : String) :
    (∀ r : SearchResult Book, _http_search_books env query page = some r →
       (r.items.map (fun b => b.id)).Nodup) ∧
    (∀ r : SearchResult Book, _http_get_author_books env author_id = some r →
       (r.items.map (fun b => b.id)).Nodup) := by
  constructor
  · intro r hr
    obtain ⟨html, _, _, items, hnorm, hrec⟩ := _http_search_books_eq_some hr
    unfold httpNormalizeBooks at hnorm
    have hperm := pySortByKey_perm hnorm
    rw [hrec]
    exact ((hperm.map (fun b => b.id)).nodup_iff).mpr (dedupById_nodup _)
  · intro r hr
    obtain ⟨html, items, hnorm, hrec⟩ := _http_get_author_books_eq_some hr
    have hperm := pySortByKey_perm hnorm
    rw [hrec]
    exact ((hperm.map (fun b => b.id)).nodup_iff).mpr
      (authorBooksLoop_nodup author_id (env.bookAnchorFindAll html) []).1

/-- C7: the HTML book normalisation keeps exactly the first occurrence of a
duplicated id: when the raw extraction contains the same id twice with
different titles, the normalised list contains exactly one book with that id,
namely the first one found in extraction order. -/
theorem claim7_dedup_first_occurrence (books : List Book) (b1 b2 : Book)
    (h1 : b1 ∈ books) (h2 : b2 ∈ books) (hid : b1.id = b2.id) (hti : b1.title ≠ b2.title)
    {norm : List Book} (hnorm : httpNormalizeBooks books = .ok norm) :
    ∃ bf, books.find? (fun b => b.id == b1.id) = some bf ∧
      norm.filter (fun b => b.id == b1.id) = [bf] := by
  unfold httpNormalizeBooks at hnorm
  have hperm : norm.Perm (dedupById books) := pySortByKey_perm hnorm
  have hfind : (books.find? (fun b => b.id == b1.id)).isSome := by
    rw [List.find?_isSome]
    exact ⟨b1, h1, by simp⟩
  obtain ⟨bf, hbf⟩ := Option.isSome_iff_exists.mp hfind
  refine ⟨bf, hbf, ?_⟩
  have hpf := hperm.filter (fun b => b.id == b1.id)
  unfold dedupById at hpf
  have hfilter := dedupByIdAux_filter_first b1.id books [] rfl
  rw [hfilter, hbf] at hpf
  exact List.perm_singleton.mp hpf

/-- C8: every book result of either adapter is sorted case-insensitively by
title (pairwise comparison of the lower-cased titles), and on the titles
"Zebra", "apple", "Mango" the normalisation produces the order
"apple", "Mango", "Zebra". -/
theorem claim8_sorted_by_title (env : Env) (query : String) (page : Nat) (author_id : String) :
    (∀ r : SearchResult Book, _http_search_books env query page = some r →
       r.items.Pairwise (fun a b => keyLe (fun x => x.title) a b = true)) ∧
    (∀ r : SearchResult Book, _http_get_author_books env author_id = some r →
       r.items.Pairwise (fun a b => keyLe (fun x => x.title) a b = true)) ∧
    (∀ r : SearchResult Book, _opds_search_books env query page = .ok (some r) →
       r.items.Pairwise (fun a b => keyLe (fun x => x.title) a b = true)) ∧
    (∀ r : SearchResult Book, _opds_get_author_books env author_id = .ok (some r) →
       r.items.Pairwise (fun a b => keyLe (fun x => x.title) a b = true)) ∧
    httpNormalizeBooks
        [{ id := "1", title := some "Zebra" }, { id := "2", title := some "apple" },
         { id := "3", title := some "Mango" }] =
      .ok [{ id := "2", title := some "apple" }, { id := "3", title := some "Mango" },
           { id := "1", title := some "Zebra" }] := by
  refine ⟨?_, ?_, ?_, ?_, by decide⟩
  · intro r hr
    obtain ⟨html, _, _, items, hnorm, hrec⟩ := _http_search_books_eq_some hr
    unfold httpNormalizeBooks at hnorm
    rw [hrec]
    exact pySortByKey_sorted hnorm
  · intro r hr
    obtain ⟨html, items, hnorm, hrec⟩ := _http_get_author_books_eq_some hr
    rw [hrec]
    exact pySortByKey_sorted hnorm
  · intro r hr
    obtain ⟨⟨root, _, hnorm⟩, _⟩ := _opds_search_books_shape hr
    exact pySortByKey_sorted hnorm
  · intro r hr
    obtain ⟨⟨root2, hnorm⟩, _⟩ := _opds_get_author_books_shape hr
    exact pySortByKey_sorted hnorm

/-- C9: for an HTML book search on page `page` whose response text was
fetched, the result's `has_more` flag is exactly the substring test for
"page=" followed by `page + 1` on the raw response text. -/
theorem claim9_has_more_heuristic (env : Env) (query : String) (page : Nat)
    (st : Nat) (html cd : String) (ct : List Nat) (r : SearchResult Book)
    (hget : env.get (httpBookSearchUrl env query page) = .success st html cd ct)
    (h : _http_search_books env query page = some r) :
    r.has_more = pyIn ("page=" ++ toString (page + 1)) html := by
  obtain ⟨html2, hreq, hne, items, hnorm, hrec⟩ := _http_search_books_eq_some h
  have heq : html2 = html := by
    have hr2 : _http_request env (httpBookSearchUrl env query page) =
        (if isSuccessStatus st = true then some html else none) := by
      unfold _http_request
      rw [hget]
    rw [hr2] at hreq
    split at hreq
    · exact ((Option.some.injEq _ _).mp hreq).symm
    · exact absurd hreq (by simp)
  rw [hrec, heq]

end FlibustaClient

namespace FlibustaClient

/-- The HTML book-search result produced in `envNextPage`. -/
def resNextPage : SearchResult Book :=
  { items := [], total_count := 0, has_more := true, source := "http" }

/-- Witness for C1 at a concrete environment serving one item per operation. -/
theorem claim1_http_priority_witness :
    (search_books envHtmlOk "q" 0 none =
       { outcome := .ok (some resHtmlBooks), opdsInvoked := false, callbackInvoked := false } ∧
     resHtmlBooks.source = "http") ∧
    (search_authors envHtmlOk "q" 0 none =
       { outcome := .ok (some resHtmlAuthors), opdsInvoked := false, callbackInvoked := false } ∧
     resHtmlAuthors.source = "http") ∧
    (get_author_books envHtmlOk "9" none =
       { outcome := .ok (some resHtmlAuthorBooks), opdsInvoked := false,
         callbackInvoked := false } ∧
     resHtmlAuthorBooks.source = "http") := by
  refine ⟨?_, ?_, ?_⟩
  · exact (claim1_http_priority envHtmlOk "q" 0 "9" none).1 resHtmlBooks (by decide) (by decide)
  · exact (claim1_http_priority envHtmlOk "q" 0 "9" none).2.1 resHtmlAuthors (by decide) (by decide)
  · exact (claim1_http_priority envHtmlOk "q" 0 "9" none).2.2 resHtmlAuthorBooks
      (by decide) (by decide)

/-- Witness for C2 at an environment where every transport call fails. -/
theorem claim2_fallback_source_witness :
    search_books envFallback "q" 0 none =
      { outcome := .ok none, opdsInvoked := true, callbackInvoked := false } ∧
    search_authors envFallback "q" 0 none =
      { outcome := .ok none, opdsInvoked := true, callbackInvoked := false } ∧
    get_author_books envFallback "9" none =
      { outcome := .ok none, opdsInvoked := true, callbackInvoked := false } ∧
    resDup.source = "opds" := by
  refine ⟨?_, ?_, ?_, ?_⟩
  · have h := ((claim2_fallback_source envFallback "q" 0 "9" none).1 (by decide)).1
    rw [h]; decide
  · have h := ((claim2_fallback_source envFallback "q" 0 "9" none).2.1 (by decide)).1
    rw [h]; decide
  · have h := ((claim2_fallback_source envFallback "q" 0 "9" none).2.2 (by decide)).1
    rw [h]; decide
  · exact ((claim2_fallback_source envDup "q" 0 "9" none).1 (by decide)).2 resDup (by decide)

/-- Counterexample for C3 as stated: a well-formed feed whose entry has a
`<title/>` with no text makes the feed adapter — and the public operation —
propagate an `AttributeError` instead of returning an absent result. -/
theorem claim3_counterexample :
    _opds_search_books envBadTitle "q" 0 = .error .attributeError ∧
    (search_books envBadTitle "q" 0 none).outcome = .error .attributeError := by
  constructor <;> decide

/-- Witness for the amended C3. -/
theorem claim3_adapter_failure_policy_witness :
    PyErr.attributeError = PyErr.attributeError ∧
    _opds_search_books envFallback "q" 0 = .ok none ∧
    ({ id := "7", title := some "Title", authors := [],
       download_links := synthDownloadLinks "7" } : Book).title.getD "" ≠ "" := by
  refine ⟨?_, ?_, ?_⟩
  · exact (claim3_adapter_failure_policy envBadTitle "q" 0 "").1 PyErr.attributeError (by decide)
  · exact (claim3_adapter_failure_policy envFallback "q" 0 "").2.1 rfl
  · exact (claim3_adapter_failure_policy envHtmlOk "q" 0 "line1").2.2.2.2
      { id := "7", title := some "Title", authors := [],
        download_links := synthDownloadLinks "7" } (by decide)

/-- Counterexample for C4 as stated: with no header and the URL
`.../b/123/epub`, the code returns the placeholder "book", not "epub". -/
theorem claim4_counterexample :
    download_book envPlain "http://flibusta.is/b/123/epub" = some (([] : List Nat), "book") ∧
    "book" ≠ "epub" := by
  constructor <;> decide

/-- Witness for the amended C4. -/
theorem claim4_filename_derivation_witness :
    download_book envPlain "u/file.fb2" = some (([] : List Nat), deriveFilename "" "u/file.fb2") ∧
    deriveFilename "attachment; filename=\"book%20one.fb2\"" "u" = "book one.fb2" ∧
    deriveFilename "" "u/file.fb2" =
      (if pyIn "." ((pySplit "u/file.fb2" '/').getLastD "") = true
       then (pySplit "u/file.fb2" '/').getLastD "" else "book") := by
  refine ⟨?_, ?_, ?_⟩
  · exact (claim4_filename_derivation envPlain "u/file.fb2" "").1 200 "" [] rfl (by decide)
  · exact (claim4_filename_derivation envPlain "u" "").2.1 "u"
  · exact (claim4_filename_derivation envPlain "u/file.fb2" "").2.2.1 (by decide)

/-- Counterexample for C5 as stated: the unmapped MIME type
`application/x-custom` normalises to "x-custom", not "custom". -/
theorem claim5_counterexample :
    _opds_parse_download_links entryCustom =
      [{ url := "http://flibusta.is/b/5", format := "x-custom",
         mime_type := "application/x-custom" }] ∧
    "x-custom" ≠ "custom" := by
  constructor <;> decide

/-- Witness for the amended C5. -/
theorem claim5_format_mapping_witness :
    ("fb2" : String) =
      (format_map.lookup "application/fb2+zip").getD
        ((pySplit "application/fb2+zip" '/').getLastD "") :=
  (claim5_format_mapping entryFb2).1
    { url := "http://flibusta.is/b/5", format := "fb2", mime_type := "application/fb2+zip" }
    (by decide)

/-- Counterexample for C6 as stated: the feed adapter can return a result
whose items carry the same book id twice. -/
theorem claim6_counterexample :
    _opds_search_books envDup "q" 0 = .ok (some resDup) ∧
    ¬ ((resDup.items.map (fun b => b.id)).Nodup) := by
  constructor <;> decide

/-- Witness for the amended C6. -/
theorem claim6_html_unique_ids_witness :
    ((resHtmlBooks.items.map (fun b => b.id)).Nodup) ∧
    ((resHtmlAuthorBooks.items.map (fun b => b.id)).Nodup) := by
  constructor
  · exact (claim6_html_unique_ids envHtmlOk "q" 0 "9").1 resHtmlBooks (by decide)
  · exact (claim6_html_unique_ids envHtmlOk "q" 0 "9").2 resHtmlAuthorBooks (by decide)

/-- Witness for C7 on a concrete raw extraction with a duplicated id. -/
theorem claim7_dedup_first_occurrence_witness :
    ∃ bf, booksDupTitles.find? (fun b => b.id == "1") = some bf ∧
      ([{ id := "1", title := some "Zebra" }] : List Book).filter (fun b => b.id == "1") = [bf] :=
  claim7_dedup_first_occurrence booksDupTitles
    { id := "1", title := some "Zebra" } { id := "1", title := some "apple" }
    (by decide) (by decide) (by decide) (by decide) (by decide)

/-- Witness for C8 on concrete HTML and feed results. -/
theorem claim8_sorted_by_title_witness :
    resHtmlBooks.items.Pairwise (fun a b => keyLe (fun x => x.title) a b = true) ∧
    resDup.items.Pairwise (fun a b => keyLe (fun x => x.title) a b = true) := by
  constructor
  · exact (claim8_sorted_by_title envHtmlOk "q" 0 "9").1 resHtmlBooks (by decide)
  · exact (claim8_sorted_by_title envDup "q" 0 "9").2.2.1 resDup (by decide)

/-- Witness for C9 on a response text containing a `page=1` marker. -/
theorem claim9_has_more_heuristic_witness :
    resNextPage.has_more = pyIn ("page=" ++ toString (0 + 1)) "x page=1 y" :=
  claim9_has_more_heuristic envNextPage "q" 0 200 "x page=1 y" "" [] resNextPage
    rfl (by decide)

/-- Witness for C10 with a raising callback at a failing environment. -/
theorem claim10_callback_exception_witness :
    search_books envFallback "q" 0 (some (.error .raised)) =
      { outcome := .ok none, opdsInvoked := true, callbackInvoked := true } ∧
    search_authors envFallback "q" 0 (some (.error .raised)) =
      { outcome := .ok none, opdsInvoked := true, callbackInvoked := true } ∧
    get_author_books envFallback "9" (some (.error .raised)) =
      { outcome := .ok none, opdsInvoked := true, callbackInvoked := true } := by
  refine ⟨?_, ?_, ?_⟩
  · have h := ((claim10_callback_exception envFallback "q" 0 "9" .raised).1 (by decide)).1
    rw [h]; decide
  · have h := ((claim10_callback_exception envFallback "q" 0 "9" .raised).2.1 (by decide)).1
    rw [h]; decide
  · have h := ((claim10_callback_exception envFallback "q" 0 "9" .raised).2.2 (by decide)).1
    rw [h]; decide

end FlibustaClient
